import Mathlib

/-!
Shallow embedding of the Financial Coach Agent repository.

The analytics engine (`src/src/analysis/financial_analyzer.py`) is embedded as
pure functions over a list of transactions; Python `float` arithmetic is
modelled exactly over `ℚ`, Python dicts (insertion ordered) as association
lists, and `datetime` values at the granularity the analyzer reads them:
an absolute day index (for `(max(dates) - min(dates)).days`) and the
`strftime("%Y-%m")` month key.  The dialogue-orchestrator message handling
(`src/src/agent/financial_coach_agent.py`) and the voice turn coordinator
(`src/src/voice/voice_interface.py`) are embedded as explicit state-passing
functions over a message type.
-/

/-! ## Data model — `src/src/models/transaction.py` -/

/-- `TransactionCategory` enum (a `str` enum in the source, so members compare
equal to their string values). -/
inductive TransactionCategory where
  | groceries | fuel | rent | utilities | shopping | clothes
  | car_service | car_purchase | entertainment | dining | healthcare
  | insurance | loan_payment | credit_card_payment | debt_payment
  | income | savings | other
deriving DecidableEq, Repr


/-- The string value of each enum member, as in the source. -/
def TransactionCategory.value : TransactionCategory → String
  | .groceries => "groceries"
  | .fuel => "fuel"
  | .rent => "rent"
  | .utilities => "utilities"
  | .shopping => "shopping"
  | .clothes => "clothes"
  | .car_service => "car_service"
  | .car_purchase => "car_purchase"
  | .entertainment => "entertainment"
  | .dining => "dining"
  | .healthcare => "healthcare"
  | .insurance => "insurance"
  | .loan_payment => "loan_payment"
  | .credit_card_payment => "credit_card_payment"
  | .debt_payment => "debt_payment"
  | .income => "income"
  | .savings => "savings"
  | .other => "other"


/-- A `datetime`, at the granularity the analyzer reads it: `day` is the
absolute day index (so `(max(dates) - min(dates)).days` is a difference of
`day` fields) and `ym` is the `strftime("%Y-%m")` month key. -/
structure CalendarDate where
  day : Int
  ym : String
deriving DecidableEq, Repr


/-- A transaction record.  Only the fields the analyzer reads are kept
(`description`, `type` and `account_type` are never consulted by the
analysis code). -/
structure Transaction where
  date : CalendarDate
  amount : ℚ
  category : TransactionCategory
deriving DecidableEq, Repr


/-! ## Python dicts as insertion-ordered association lists -/

/-- An insertion-ordered `dict[str, float]`, as `defaultdict(float)` builds it. -/
abbrev QDict := List (String × ℚ)


/-- `d[k] += v` on a `defaultdict(float)`: update an existing key in place,
else append the new key. -/
def QDict.add (d : QDict) (k : String) (v : ℚ) : QDict :=
  match d with
  | [] => [(k, v)]
  | (k', v') :: rest => if k' = k then (k', v' + v) :: rest else (k', v') :: QDict.add rest k v


/-- `d.get(k, fallback)`. -/
def QDict.lookupD (d : QDict) (k : String) (fallback : ℚ) : ℚ :=
  match d with
  | [] => fallback
  | (k', v') :: rest => if k' = k then v' else QDict.lookupD rest k fallback


/-- `d.values()`. -/
def QDict.values (d : QDict) : List ℚ := d.map (·.2)


/-- `k in d`. -/
def QDict.hasKey (d : QDict) (k : String) : Bool := d.any (fun kv => kv.1 = k)


/-! ## Analytics engine — `src/src/analysis/financial_analyzer.py` -/

/-- `max(dates)` over day indices (callers guarantee a non-empty list, as the
Python `max` builtin does). -/
def listMax : List Int → Int
  | [] => 0
  | x :: xs => xs.foldl max x


/-- `min(dates)` over day indices. -/
def listMin : List Int → Int
  | [] => 0
  | x :: xs => xs.foldl min x


/-- `(max(dates) - min(dates)).days` for a transaction list. -/
def spanDays (ts : List Transaction) : Int :=
  listMax (ts.map fun t => t.date.day) - listMin (ts.map fun t => t.date.day)


/-- Python substring test `pat in s`. -/
def strContainsSub (s pat : String) : Bool :=
  (List.range (s.toList.length + 1)).any fun i => pat.toList.isPrefixOf (s.toList.drop i)


/-- `FinancialAnalyzer._validate_data`, run by `__init__`: raising
`ValueError` is modelled as returning `.error` with the raised message. -/
def validate_data (ts : List Transaction) : Except String Unit :=
  if ts.isEmpty then .error "No transactions provided."
  else if spanDays ts < 30 then
    .error ("Not enough data: only " ++ toString (spanDays ts) ++ " days of transactions.")
  else .ok ()


instance : DecidableEq (Except String Unit) := fun a b =>
  match a, b with
  | .ok (), .ok () => isTrue rfl
  | .error s, .error t =>
      if h : s = t then isTrue (by rw [h]) else isFalse (by intro hh; cases hh; exact h rfl)
  | .ok _, .error _ => isFalse (by intro h; cases h)
  | .error _, .ok _ => isFalse (by intro h; cases h)


/-- The analyzer's construction precondition: `_validate_data` does not raise. -/
def TransactionsValid (ts : List Transaction) : Prop := validate_data ts = .ok ()


instance : DecidablePred TransactionsValid := fun ts =>
  inferInstanceAs (Decidable (validate_data ts = .ok ()))


/-- Python's binary `max(a, b)`, written out so it reduces in the kernel
(it agrees with `max` on `ℚ`, see `pymax_eq_max`). -/
def pymax (a b : ℚ) : ℚ := if a < b then b else a


/-- `FinancialAnalyzer._months`. -/
def months_of (ts : List Transaction) : ℚ := pymax ((spanDays ts : ℚ) / 30) 1


/-- `FinancialAnalyzer.get_spending_by_category`. -/
def get_spending_by_category (ts : List Transaction) : QDict :=
  ts.foldl (fun d t => if t.amount < 0 then QDict.add d t.category.value |t.amount| else d) []


/-- `FinancialAnalyzer.get_monthly_spending`. -/
def get_monthly_spending (ts : List Transaction) : QDict :=
  ts.foldl (fun d t => if t.amount < 0 then QDict.add d t.date.ym |t.amount| else d) []


/-- `sum(d.values()) / len(d) if d else 0` — the mean-of-values expression the
source writes out identically in `get_income_summary`, `get_debt_analysis`
and `identify_spending_patterns`. -/
def meanOfValues (d : QDict) : ℚ :=
  if d.isEmpty then 0 else (QDict.values d).sum / (d.length : ℚ)


/-- The dict returned by `get_income_summary`. -/
structure IncomeSummary where
  total : ℚ
  average_monthly : ℚ
  count : ℕ
  months_covered : ℚ
  monthly_savings : ℚ
  savings_rate : ℚ
  average_monthly_spending : ℚ
deriving DecidableEq, Repr


/-- `FinancialAnalyzer.get_income_summary`. -/
def get_income_summary (ts : List Transaction) : IncomeSummary :=
  let income_txns := ts.filter fun t => 0 < t.amount
  if income_txns.isEmpty then
    { total := 0, average_monthly := 0, count := 0, months_covered := 0,
      monthly_savings := 0, savings_rate := 0, average_monthly_spending := 0 }
  else
    let total := (income_txns.map fun t => t.amount).sum
    let months := pymax ((spanDays income_txns : ℚ) / 30) 1
    let avg_income := total / months
    let monthly_spending := get_monthly_spending ts
    let avg_spending := meanOfValues monthly_spending
    let savings := avg_income - avg_spending
    { total := total, average_monthly := avg_income, count := income_txns.length,
      months_covered := months, monthly_savings := savings,
      savings_rate := if 0 < avg_income then savings / avg_income * 100 else 0,
      average_monthly_spending := avg_spending }


/-- One entry of the `strategies` list in `get_debt_analysis`. -/
structure DebtStrategy where
  strategy : String
  description : String
  monthly_allocation : ℚ
deriving DecidableEq, Repr


/-- The dict returned by `get_debt_analysis`. -/
structure DebtAnalysis where
  total_debt_payments : ℚ
  average_monthly_debt : ℚ
  debt_transaction_count : ℕ
  monthly_breakdown : QDict
  strategies : List DebtStrategy
  available_for_debt : ℚ
deriving DecidableEq, Repr


/-- `t.category in debt_categories` for the three-element set in
`get_debt_analysis`. -/
def isDebtCategory (c : TransactionCategory) : Bool :=
  c == .loan_payment || c == .debt_payment || c == .credit_card_payment


/-- `FinancialAnalyzer.get_debt_analysis`. -/
def get_debt_analysis (ts : List Transaction) : DebtAnalysis :=
  let debt_txns := ts.filter fun t => isDebtCategory t.category
  let total := (debt_txns.map fun t => |t.amount|).sum
  let monthly := debt_txns.foldl (fun d t => QDict.add d t.date.ym |t.amount|) []
  let avg_monthly := meanOfValues monthly
  let available := (get_income_summary ts).monthly_savings
  let potential := avg_monthly + pymax 0 (available * 0.5)
  let strategies :=
    if 0 < avg_monthly then
      [ { strategy := "debt_snowball",
          description := "Pay minimums on all debts, then put extra toward the smallest balance.",
          monthly_allocation := potential },
        { strategy := "debt_avalanche",
          description := "Pay minimums on all debts, then put extra toward the highest-interest balance.",
          monthly_allocation := potential } ]
    else []
  { total_debt_payments := total, average_monthly_debt := avg_monthly,
    debt_transaction_count := debt_txns.length, monthly_breakdown := monthly,
    strategies := strategies, available_for_debt := available }


/-- One entry of the list returned by `identify_spending_patterns` (the
`insight` presentation string, a formatted copy of the other fields, is
omitted). -/
inductive SpendingPattern where
  | high_spending (category : String) (monthly_average : ℚ)
  | frequent_fuel (frequency : ℕ)
  | frequent_dining (frequency : ℕ)
deriving DecidableEq, Repr


/-- Stable insertion step for descending-by-value order: the new element goes
after every element whose value is `≥` its own, exactly the placement Python's
stable `sorted(..., key=lambda x: x[1], reverse=True)` gives it. -/
def insertByValueDesc (x : String × ℚ) : QDict → QDict
  | [] => [x]
  | y :: ys => if x.2 ≤ y.2 then y :: insertByValueDesc x ys else x :: y :: ys


/-- `sorted(d.items(), key=lambda x: x[1], reverse=True)` — a stable
descending sort by value. -/
def sortByValueDesc (d : QDict) : QDict := d.foldl (fun acc x => insertByValueDesc x acc) []


/-- `FinancialAnalyzer.identify_spending_patterns`. -/
def identify_spending_patterns (ts : List Transaction) : List SpendingPattern :=
  let category_spending := get_spending_by_category ts
  let monthly_spending := get_monthly_spending ts
  let avg_monthly := meanOfValues monthly_spending
  let months := months_of ts
  let high := (sortByValueDesc category_spending).filterMap fun cv =>
    if avg_monthly * 0.3 < cv.2 / months then
      some (.high_spending cv.1 (cv.2 / months))
    else none
  let fuel :=
    if QDict.hasKey category_spending TransactionCategory.fuel.value then
      let fuel_frequency := (ts.filter fun t => t.category == .fuel).length
      if 4 * months * 1.5 < (fuel_frequency : ℚ) then
        [SpendingPattern.frequent_fuel fuel_frequency]
      else []
    else []
  let dining :=
    if QDict.hasKey category_spending TransactionCategory.dining.value then
      let dining_frequency := (ts.filter fun t => t.category == .dining).length
      if 8 * months * 1.5 < (dining_frequency : ℚ) then
        [SpendingPattern.frequent_dining dining_frequency]
      else []
    else []
  high ++ fuel ++ dining


/-- `category.value.replace("_", " ").title()`, tabulated per enum member. -/
def titleName : TransactionCategory → String
  | .groceries => "Groceries"
  | .fuel => "Fuel"
  | .rent => "Rent"
  | .utilities => "Utilities"
  | .shopping => "Shopping"
  | .clothes => "Clothes"
  | .car_service => "Car Service"
  | .car_purchase => "Car Purchase"
  | .entertainment => "Entertainment"
  | .dining => "Dining"
  | .healthcare => "Healthcare"
  | .insurance => "Insurance"
  | .loan_payment => "Loan Payment"
  | .credit_card_payment => "Credit Card Payment"
  | .debt_payment => "Debt Payment"
  | .income => "Income"
  | .savings => "Savings"
  | .other => "Other"


/-- One entry of the `recommendations` list in `get_budget_recommendations`
(the `suggestion` presentation string, a formatted copy of the other fields,
is omitted). -/
structure BudgetRec where
  category : String
  recommended_monthly : ℚ
  actual_monthly : ℚ
deriving DecidableEq, Repr


/-- The dict returned by `get_budget_recommendations`. -/
structure BudgetRecommendations where
  recommendations : List BudgetRec
  average_monthly_income : ℚ
  average_monthly_spending : ℚ
  total_recommended_budget : ℚ
deriving DecidableEq, Repr


/-- The `targets` dict of `get_budget_recommendations`, in declaration order. -/
def budgetTargets : List (TransactionCategory × ℚ) :=
  [(.rent, 30), (.groceries, 10), (.fuel, 5), (.utilities, 5), (.dining, 5), (.shopping, 5)]


/-- The body of the `for category, pct in targets.items()` loop of
`get_budget_recommendations`: accumulates the flagged recommendations and
the running `total_recommended`. -/
def budgetStep (avg_income : ℚ) (spending : QDict) (months : ℚ)
    (acc : List BudgetRec × ℚ) (cp : TransactionCategory × ℚ) : List BudgetRec × ℚ :=
  let recommended := if 0 < avg_income then avg_income * cp.2 / 100 else 0
  let actual := QDict.lookupD spending cp.1.value 0 / months
  let total := acc.2 + recommended
  if recommended * 1.2 < actual then
    (acc.1 ++ [{ category := titleName cp.1, recommended_monthly := recommended,
                 actual_monthly := actual }], total)
  else (acc.1, total)


/-- `FinancialAnalyzer.get_budget_recommendations`. -/
def get_budget_recommendations (ts : List Transaction) : BudgetRecommendations :=
  let income := get_income_summary ts
  let spending := get_spending_by_category ts
  let avg_income := income.average_monthly
  let months := months_of ts
  let res := budgetTargets.foldl (budgetStep avg_income spending months) ([], 0)
  { recommendations := res.1, average_monthly_income := avg_income,
    average_monthly_spending := income.average_monthly_spending,
    total_recommended_budget := res.2 }


/-! ## Dialogue orchestrator messages — `src/src/agent/financial_coach_agent.py` -/

/-- A conversation message, by role (`SystemMessage` / `HumanMessage` /
`AIMessage` / `ToolMessage`), carrying its textual content. -/
inductive Msg where
  | system (content : String)
  | human (content : String)
  | ai (content : String)
  | tool (content : String)
deriving DecidableEq, Repr


/-- `isinstance(m, SystemMessage)`. -/
def Msg.isSystem : Msg → Bool
  | .system _ => true
  | _ => false


/-- The fixed fallback text `"I've analyzed your data. How can I help?"`
used by `chat` when no model answer is found. -/
def fallbackResponse : String := "I've analyzed your data. How can I help?"


/-- One iteration of the `for msg in reversed(result["messages"])` loop in
`chat` (lines 261-265): the pair is `(spoken_response, detailed_data)`;
Python string truthiness is emptiness. -/
def extractStep (sd : String × String) (m : Msg) : String × String :=
  match m with
  | .ai c => if c ≠ "" ∧ sd.2 = "" then (c, sd.2) else sd
  | .tool c => if sd.2 = "" then (sd.1, c) else sd
  | _ => sd


/-- The response extraction of `chat` (lines 258-270): scan the result
messages from the end, then default `detailed_data` to `spoken_response`. -/
def extractResponse (msgs : List Msg) : String × String :=
  let sd := msgs.reverse.foldl extractStep (fallbackResponse, "")
  (sd.1, if sd.2 = "" then sd.1 else sd.2)


/-- The content of an `AIMessage` when non-empty (the shape the claim's
"model-authored message with non-empty text" selects). -/
def aiText : Msg → Option String
  | .ai c => if c = "" then none else some c
  | _ => none


/-- The content of a `ToolMessage` when non-empty. -/
def toolText : Msg → Option String
  | .tool c => if c = "" then none else some c
  | _ => none


/-- Stated for refinement comparison, following the claim's words: the
content of the most recent model-authored message with non-empty text,
scanning the list from the end backward. -/
def claimSpoken (msgs : List Msg) : Option String :=
  (msgs.reverse.filterMap aiText).head?


/-- What `extractResponse` actually returns as `spoken_response` (before the
detail fallback): among the messages after the last tool message with
non-empty content, the chronologically FIRST model message with non-empty
content — because the backward scan keeps overwriting `spoken_response`
until `detailed_data` becomes non-empty. -/
def codeSpoken (msgs : List Msg) : String :=
  ((msgs.reverse.takeWhile fun m => (toolText m).isNone).filterMap aiText).getLast?.getD
    fallbackResponse


/-- What `extractResponse` actually returns as `detailed_data` (before the
fallback): the most recent tool message with non-empty content. -/
def codeDetail (msgs : List Msg) : String :=
  ((msgs.reverse.filterMap toolText).head?).getD ""


/-- The message list `chat` submits to the graph (lines 240-250):
the system instruction is prepended exactly when the `conversation_history`
argument is `None`/empty or contains no `SystemMessage`; then the history
(if any) and the new user message. -/
def buildChatInput (sysPrompt userMessage : String) (history : Option (List Msg)) : List Msg :=
  let hist := history.getD []
  (if hist.isEmpty || !(hist.any Msg.isSystem) then [Msg.system sysPrompt] else [])
    ++ hist ++ [Msg.human userMessage]


/-- Modelled from the spec: the persisted Dialogue State for one session key
is "mutated by appending the new user turn, the model's turn(s), and any
tool-result turns" (spec section 3); the checkpointer that performs this
append is the external graph runtime, not code under `src/`.  Each call
submits `buildChatInput` with `conversation_history = none` — the shape used
by every in-repo caller (`voice_interface.py` line 110, `main.py` line 39).
Model and tool turns are omitted here because they never carry the system
role, which is all this model is used to count. -/
def sessionTranscript (sysPrompt : String) (userMessages : List String) : List Msg :=
  userMessages.foldl (fun st u => st ++ buildChatInput sysPrompt u none) []


/-- Number of system-instruction messages in a transcript. -/
def countSystem (l : List Msg) : Nat := (l.filter Msg.isSystem).length


/-! ## Voice turn coordinator — `src/src/voice/voice_interface.py` -/

/-- `_DATA_TRIGGER_KEYWORDS`. -/
def dataTriggerKeywords : List String :=
  ["plan", "budget", "breakdown", "payoff", "debt", "schedule",
   "recommend", "summary", "details", "what should"]


/-- `any(kw in user_text.lower() for kw in _DATA_TRIGGER_KEYWORDS)`. -/
def hasDataTrigger (user_text : String) : Bool :=
  dataTriggerKeywords.any fun kw => strContainsSub user_text.toLower kw


/-- Result of one `llm_node` generation turn: the updated
`last_handled_user_msg_id`, whether `_publish_data_card` was scheduled, and
the single spoken chunk yielded. -/
structure VoiceTurnResult where
  newState : Option String
  published : Bool
  spoken : String
deriving DecidableEq, Repr


/-- The deduplication-and-publish logic of `llm_node` (lines 116-130), as a
state transition on `last_handled_user_msg_id` (initially `None`):
publish only when the turn identifier differs from the stored one AND the
extracted text contains a trigger keyword, updating the stored identifier
exactly then; always yield the orchestrator's `voice` text as the spoken
chunk.  `publishOk` is the outcome of the fire-and-forget
`_publish_data_card` task (which swallows its own exceptions); it is an
input here so that independence of the turn's outputs from it is a stated
theorem rather than an assumption. -/
def voiceTurnStep (st : Option String) (user_msg_id user_text voice_text : String)
    (publishOk : Bool) : VoiceTurnResult :=
  let _ := publishOk
  if some user_msg_id ≠ st then
    if hasDataTrigger user_text then
      { newState := some user_msg_id, published := true, spoken := voice_text }
    else { newState := st, published := false, spoken := voice_text }
  else { newState := st, published := false, spoken := voice_text }


/-! ## Definitions used by the claim statements, witnesses and counterexamples -/

/-- Concrete transactions reused by the witnesses below (a valid store spans
31 days). -/
def exIncomeT : Transaction := ⟨⟨0, "2024-01"⟩, 100, .income⟩


def exRentT : Transaction := ⟨⟨31, "2024-02"⟩, -50, .rent⟩


def exLoanT : Transaction := ⟨⟨31, "2024-02"⟩, -350, .loan_payment⟩


/-- The `recommended` expression of the budget loop body. -/
def budgetRecommended (ai : ℚ) (cp : TransactionCategory × ℚ) : ℚ :=
  if 0 < ai then ai * cp.2 / 100 else 0


/-- The `actual` expression of the budget loop body. -/
def budgetActual (sp : QDict) (m : ℚ) (c : TransactionCategory) : ℚ :=
  QDict.lookupD sp c.value 0 / m


/-- The flagging decision of the budget loop body, as an `Option`. -/
def budgetFlag (ai : ℚ) (sp : QDict) (m : ℚ) (cp : TransactionCategory × ℚ) : Option BudgetRec :=
  if budgetRecommended ai cp * 1.2 < budgetActual sp m cp.1 then
    some { category := titleName cp.1, recommended_monthly := budgetRecommended ai cp,
           actual_monthly := budgetActual sp m cp.1 }
  else none


/-- The high-spending sublist built by `identify_spending_patterns`. -/
def highPart (ts : List Transaction) : List SpendingPattern :=
  (sortByValueDesc (get_spending_by_category ts)).filterMap fun cv =>
    if meanOfValues (get_monthly_spending ts) * 0.3 < cv.2 / months_of ts then
      some (.high_spending cv.1 (cv.2 / months_of ts))
    else none


/-- The frequent-fuel sublist built by `identify_spending_patterns`. -/
def fuelPart (ts : List Transaction) : List SpendingPattern :=
  if QDict.hasKey (get_spending_by_category ts) TransactionCategory.fuel.value then
    if 4 * months_of ts * 1.5 < (((ts.filter fun t => t.category == .fuel).length : ℕ) : ℚ) then
      [.frequent_fuel (ts.filter fun t => t.category == .fuel).length]
    else []
  else []


/-- The frequent-dining sublist built by `identify_spending_patterns`. -/
def diningPart (ts : List Transaction) : List SpendingPattern :=
  if QDict.hasKey (get_spending_by_category ts) TransactionCategory.dining.value then
    if 8 * months_of ts * 1.5 < (((ts.filter fun t => t.category == .dining).length : ℕ) : ℚ) then
      [.frequent_dining (ts.filter fun t => t.category == .dining).length]
    else []
  else []


/-- The `monthly_average` field of a high-spending entry (0 on the others). -/
def patternMonthlyAvg : SpendingPattern → ℚ
  | .high_spending _ m => m
  | .frequent_fuel _ => 0
  | .frequent_dining _ => 0


/-- A valid list of ten positive-amount (refund) fuel transactions spanning
30 days: the fuel-transaction count (10) exceeds `4*months*1.5 = 6`, yet no
fuel expense exists, so `fuel` is absent from spending-by-category and the
code emits no pattern at all. -/
def fuelRefundT (d : Int) : Transaction := ⟨⟨d, "2024-01"⟩, 1, .fuel⟩


def exC5 : List Transaction :=
  [fuelRefundT 0, fuelRefundT 3, fuelRefundT 6, fuelRefundT 9, fuelRefundT 12,
   fuelRefundT 15, fuelRefundT 18, fuelRefundT 21, fuelRefundT 24, fuelRefundT 30]


/-- A two-turn conversation history (no tool call in either turn), as one
`chat` invocation sees it when the checkpointer has persisted the first turn. -/
def exC6 : List Msg :=
  [.system "sys", .human "h1", .ai "first answer", .human "h2", .ai "second answer"]


/-- A copy of a transaction with the sign of its amount flipped. -/
def flipAmount (t : Transaction) : Transaction := { t with amount := -t.amount }


/-! ## General helper lemmas -/

theorem pymax_eq_max (a b : ℚ) : pymax a b = max a b := by
  unfold pymax
  rcases lt_or_le a b with h | h
  · rw [if_pos h, max_eq_right h.le]
  · rw [if_neg (not_lt.mpr h), max_eq_left h]


theorem one_le_months_of (ts : List Transaction) : 1 ≤ months_of ts := by
  rw [months_of, pymax_eq_max]; exact le_max_right _ _


theorem months_of_ne_zero (ts : List Transaction) : months_of ts ≠ 0 := by
  have := one_le_months_of ts
  intro h; rw [h] at this; norm_num at this


theorem strContainsSub_middle (a p b : String) : strContainsSub (a ++ p ++ b) p = true := by
  unfold strContainsSub
  rw [List.any_eq_true]
  refine ⟨a.toList.length, ?_, ?_⟩
  · rw [List.mem_range]
    have : (a ++ p ++ b).toList = a.toList ++ (p.toList ++ b.toList) := by
      show (a ++ p ++ b).data = a.data ++ (p.data ++ b.data)
      rw [String.data_append, String.data_append, List.append_assoc]
    rw [this, List.length_append]
    omega
  · have : (a ++ p ++ b).toList = a.toList ++ (p.toList ++ b.toList) := by
      show (a ++ p ++ b).data = a.data ++ (p.data ++ b.data)
      rw [String.data_append, String.data_append, List.append_assoc]
    rw [this]
    have hlen : a.toList.length = (a.toList).length := rfl
    rw [List.drop_left]
    rw [List.isPrefixOf_iff_prefix]
    exact List.prefix_append _ _


theorem getLastD_cons {α : Type} (a fb : α) (l : List α) :
    ((a :: l).getLast?).getD fb = (l.getLast?).getD a := by
  induction l generalizing a fb with
  | nil => rfl
  | cons b bs ih => rw [List.getLast?_cons_cons, ih b fb, ih b a]


/-! ## Claim C1 -/

/-- Claim C1: construction (`_validate_data`) fails on an empty transaction
list; fails on a non-empty list whose whole-day span is strictly under 30
days, with an error message stating the actual span in days; and succeeds on
every non-empty list spanning at least 30 days.  (On the empty list no span
exists, and the raised message is the fixed no-transactions text.) -/
theorem c1_construction_validation (ts : List Transaction) :
    (ts = [] → validate_data ts = .error "No transactions provided.")
    ∧ (ts ≠ [] → spanDays ts < 30 →
        ∃ msg, validate_data ts = .error msg
          ∧ strContainsSub msg (toString (spanDays ts) ++ " days") = true)
    ∧ (ts ≠ [] → 30 ≤ spanDays ts → validate_data ts = .ok ()) := by
  refine ⟨?_, ?_, ?_⟩
  · intro h; subst h; rfl
  · intro hne hspan
    refine ⟨"Not enough data: only " ++ (toString (spanDays ts) ++ " days") ++ " of transactions.", ?_, ?_⟩
    · have hmsg : "Not enough data: only " ++ (toString (spanDays ts) ++ " days") ++ " of transactions."
          = "Not enough data: only " ++ toString (spanDays ts) ++ " days of transactions." := by
        rw [String.append_assoc, String.append_assoc]
        have : (" days" : String) ++ " of transactions." = " days of transactions." := rfl
        rw [this, ← String.append_assoc]
      rw [hmsg]
      simp [validate_data, List.isEmpty_iff, hne, hspan]
    · exact strContainsSub_middle _ _ _
  · intro hne hge
    simp [validate_data, List.isEmpty_iff, hne, not_lt.mpr hge]


/-- Witness for C1 at a concrete two-transaction list spanning 10 days. -/
theorem c1_construction_validation_witness :
    (([⟨⟨0, "2024-01"⟩, 100, .income⟩, ⟨⟨10, "2024-01"⟩, -50, .rent⟩] : List Transaction) ≠ [])
    ∧ spanDays [⟨⟨0, "2024-01"⟩, 100, .income⟩, ⟨⟨10, "2024-01"⟩, -50, .rent⟩] < 30
    ∧ (∃ msg, validate_data [⟨⟨0, "2024-01"⟩, 100, .income⟩, ⟨⟨10, "2024-01"⟩, -50, .rent⟩] = .error msg
        ∧ strContainsSub msg
            (toString (spanDays [⟨⟨0, "2024-01"⟩, 100, .income⟩, ⟨⟨10, "2024-01"⟩, -50, .rent⟩]) ++ " days")
            = true) :=
  ⟨by decide, by decide,
    (c1_construction_validation _).2.1 (by decide) (by decide)⟩


/-! ## Claim C2 -/

/-- Claim C2: on a valid transaction list, `get_income_summary` returns the
all-zero report when no transaction has a positive amount, and otherwise
`average_monthly = totalIncome / max(spanDays(incomeTxns)/30, 1)`,
`average_monthly_spending` is the mean of the `get_monthly_spending` values
(0 when that map is empty), `monthly_savings` is their difference, and
`savings_rate = monthly_savings/average_monthly*100` when
`average_monthly > 0` and 0 otherwise. -/
theorem c2_income_summary (ts : List Transaction) (hv : TransactionsValid ts) :
    ((ts.filter fun t => 0 < t.amount) = [] →
      get_income_summary ts
        = { total := 0, average_monthly := 0, count := 0, months_covered := 0,
            monthly_savings := 0, savings_rate := 0, average_monthly_spending := 0 })
    ∧ ((ts.filter fun t => 0 < t.amount) ≠ [] →
        (get_income_summary ts).average_monthly
            = ((ts.filter fun t => 0 < t.amount).map fun t => t.amount).sum
                / pymax ((spanDays (ts.filter fun t => 0 < t.amount) : ℚ) / 30) 1
        ∧ (get_income_summary ts).average_monthly_spending
            = (if (get_monthly_spending ts).isEmpty then 0
               else (QDict.values (get_monthly_spending ts)).sum / ((get_monthly_spending ts).length : ℚ))
        ∧ (get_income_summary ts).monthly_savings
            = (get_income_summary ts).average_monthly - (get_income_summary ts).average_monthly_spending
        ∧ (get_income_summary ts).savings_rate
            = (if 0 < (get_income_summary ts).average_monthly
               then (get_income_summary ts).monthly_savings / (get_income_summary ts).average_monthly * 100
               else 0)) := by
  constructor
  · intro h
    simp [get_income_summary, h]
  · intro h
    have hne : (ts.filter fun t => 0 < t.amount).isEmpty = false := by
      simpa [List.isEmpty_iff] using h
    refine ⟨?_, ?_, ?_, ?_⟩ <;> simp [get_income_summary, hne, meanOfValues]


/-- Witness for C2 at a concrete valid transaction list. -/
theorem c2_income_summary_witness :
    TransactionsValid [exIncomeT, exRentT]
    ∧ (([exIncomeT, exRentT].filter fun t => 0 < t.amount) = [] →
        get_income_summary [exIncomeT, exRentT]
          = { total := 0, average_monthly := 0, count := 0, months_covered := 0,
              monthly_savings := 0, savings_rate := 0, average_monthly_spending := 0 })
    ∧ (([exIncomeT, exRentT].filter fun t => 0 < t.amount) ≠ [] →
        (get_income_summary [exIncomeT, exRentT]).average_monthly
            = (([exIncomeT, exRentT].filter fun t => 0 < t.amount).map fun t => t.amount).sum
                / pymax ((spanDays ([exIncomeT, exRentT].filter fun t => 0 < t.amount) : ℚ) / 30) 1
        ∧ (get_income_summary [exIncomeT, exRentT]).average_monthly_spending
            = (if (get_monthly_spending [exIncomeT, exRentT]).isEmpty then 0
               else (QDict.values (get_monthly_spending [exIncomeT, exRentT])).sum
                      / ((get_monthly_spending [exIncomeT, exRentT]).length : ℚ))
        ∧ (get_income_summary [exIncomeT, exRentT]).monthly_savings
            = (get_income_summary [exIncomeT, exRentT]).average_monthly
                - (get_income_summary [exIncomeT, exRentT]).average_monthly_spending
        ∧ (get_income_summary [exIncomeT, exRentT]).savings_rate
            = (if 0 < (get_income_summary [exIncomeT, exRentT]).average_monthly
               then (get_income_summary [exIncomeT, exRentT]).monthly_savings
                      / (get_income_summary [exIncomeT, exRentT]).average_monthly * 100
               else 0)) :=
  ⟨by decide, (c2_income_summary [exIncomeT, exRentT] (by decide)).1,
    (c2_income_summary [exIncomeT, exRentT] (by decide)).2⟩


/-! ## Claim C3 -/

/-- Claim C3: on a valid transaction list, `get_debt_analysis` returns a
non-empty `strategies` list iff `average_monthly_debt > 0`; when non-empty it
holds exactly the two strategies "debt_snowball" and "debt_avalanche", both
with `monthly_allocation = average_monthly_debt + max(0, monthly_savings*0.5)`
(savings taken from `get_income_summary`); and a list with no debt-category
transactions yields `strategies = []` and `total_debt_payments = 0`. -/
theorem c3_debt_strategies (ts : List Transaction) (hv : TransactionsValid ts) :
    ((get_debt_analysis ts).strategies ≠ [] ↔ 0 < (get_debt_analysis ts).average_monthly_debt)
    ∧ (0 < (get_debt_analysis ts).average_monthly_debt →
        (get_debt_analysis ts).strategies.map (fun s => s.strategy)
            = ["debt_snowball", "debt_avalanche"]
        ∧ (get_debt_analysis ts).strategies.map (fun s => s.monthly_allocation)
            = [(get_debt_analysis ts).average_monthly_debt
                 + pymax 0 ((get_income_summary ts).monthly_savings * 0.5),
               (get_debt_analysis ts).average_monthly_debt
                 + pymax 0 ((get_income_summary ts).monthly_savings * 0.5)])
    ∧ ((ts.filter fun t => isDebtCategory t.category) = [] →
        (get_debt_analysis ts).strategies = [] ∧ (get_debt_analysis ts).total_debt_payments = 0) := by
  refine ⟨?_, ?_, ?_⟩
  · by_cases hpos : 0 < meanOfValues ((ts.filter fun t => isDebtCategory t.category).foldl
        (fun d t => QDict.add d t.date.ym |t.amount|) []) <;>
      simp [get_debt_analysis, hpos]
  · intro hpos
    have hpos' : 0 < meanOfValues ((ts.filter fun t => isDebtCategory t.category).foldl
        (fun d t => QDict.add d t.date.ym |t.amount|) []) := by
      simpa [get_debt_analysis] using hpos
    constructor <;> simp [get_debt_analysis, hpos']
  · intro h
    simp [get_debt_analysis, h, meanOfValues]


/-- Witness for C3 at a concrete valid list with one loan payment. -/
theorem c3_debt_strategies_witness :
    TransactionsValid [exIncomeT, exLoanT]
    ∧ (((get_debt_analysis [exIncomeT, exLoanT]).strategies ≠ []
          ↔ 0 < (get_debt_analysis [exIncomeT, exLoanT]).average_monthly_debt)
        ∧ (0 < (get_debt_analysis [exIncomeT, exLoanT]).average_monthly_debt →
            (get_debt_analysis [exIncomeT, exLoanT]).strategies.map (fun s => s.strategy)
                = ["debt_snowball", "debt_avalanche"]
            ∧ (get_debt_analysis [exIncomeT, exLoanT]).strategies.map (fun s => s.monthly_allocation)
                = [(get_debt_analysis [exIncomeT, exLoanT]).average_monthly_debt
                     + pymax 0 ((get_income_summary [exIncomeT, exLoanT]).monthly_savings * 0.5),
                   (get_debt_analysis [exIncomeT, exLoanT]).average_monthly_debt
                     + pymax 0 ((get_income_summary [exIncomeT, exLoanT]).monthly_savings * 0.5)])
        ∧ (([exIncomeT, exLoanT].filter fun t => isDebtCategory t.category) = [] →
            (get_debt_analysis [exIncomeT, exLoanT]).strategies = []
            ∧ (get_debt_analysis [exIncomeT, exLoanT]).total_debt_payments = 0)) :=
  ⟨by decide, c3_debt_strategies [exIncomeT, exLoanT] (by decide)⟩


/-! ## Claim C4 -/

theorem budgetStep_eq (ai m : ℚ) (sp : QDict) (acc : List BudgetRec × ℚ)
    (cp : TransactionCategory × ℚ) :
    budgetStep ai sp m acc cp
      = (acc.1 ++ (budgetFlag ai sp m cp).toList, acc.2 + budgetRecommended ai cp) := by
  unfold budgetStep budgetFlag budgetRecommended budgetActual
  by_cases hc : (if 0 < ai then ai * cp.2 / 100 else 0) * 1.2 < QDict.lookupD sp cp.1.value 0 / m
  · simp only [if_pos hc, Option.toList]
  · simp only [if_neg hc, Option.toList, List.append_nil]


theorem budget_foldl_spec (ai m : ℚ) (sp : QDict)
    (targets : List (TransactionCategory × ℚ)) (acc : List BudgetRec × ℚ) :
    targets.foldl (budgetStep ai sp m) acc
      = (acc.1 ++ targets.filterMap (budgetFlag ai sp m),
         acc.2 + (targets.map (budgetRecommended ai)).sum) := by
  induction targets generalizing acc with
  | nil => simp
  | cons cp rest ih =>
    rw [List.foldl_cons, budgetStep_eq, ih, List.filterMap_cons]
    rcases hfc : budgetFlag ai sp m cp with _ | r <;>
      simp [hfc, List.append_assoc, add_assoc]


theorem budget_flag_mem (ai m : ℚ) (sp : QDict) (cp : TransactionCategory × ℚ)
    (hcp : cp ∈ budgetTargets) :
    (∃ r ∈ budgetTargets.filterMap (budgetFlag ai sp m), r.category = titleName cp.1)
      ↔ budgetRecommended ai cp * 1.2 < budgetActual sp m cp.1 := by
  constructor
  · rintro ⟨r, hr, hcat⟩
    rw [List.mem_filterMap] at hr
    obtain ⟨cp', hcp', hflag⟩ := hr
    unfold budgetFlag at hflag
    split at hflag
    case isTrue hcond =>
      have hrcat : r.category = titleName cp'.1 := by cases hflag; rfl
      have hnames : (fun x : TransactionCategory × ℚ => titleName x.1) cp'
          = (fun x : TransactionCategory × ℚ => titleName x.1) cp := by
        show titleName cp'.1 = titleName cp.1
        rw [← hrcat, hcat]
      have hnodup : (budgetTargets.map fun x => titleName x.1).Nodup := by decide
      have hcpeq : cp' = cp := List.inj_on_of_nodup_map hnodup hcp' hcp hnames
      rw [← hcpeq]; exact hcond
    case isFalse => cases hflag
  · intro hc
    refine ⟨{ category := titleName cp.1, recommended_monthly := budgetRecommended ai cp,
              actual_monthly := budgetActual sp m cp.1 }, ?_, rfl⟩
    rw [List.mem_filterMap]
    exact ⟨cp, hcp, by simp [budgetFlag, hc]⟩


/-- Claim C4: on a valid transaction list, `get_budget_recommendations`
walks the six fixed targets (rent 30, groceries 10, fuel 5, utilities 5,
dining 5, shopping 5) in declaration order with
`recommended = average_monthly_income * pct / 100` (0 with no income) and
`actual = categorySpendingTotal / months`; a category is flagged iff
`actual > recommended * 1.2`; and `total_recommended_budget` is the sum of
all six recommended values regardless of flagging. -/
theorem c4_budget_recommendations (ts : List Transaction) (hv : TransactionsValid ts) :
    (get_budget_recommendations ts).recommendations
        = budgetTargets.filterMap
            (budgetFlag (get_income_summary ts).average_monthly (get_spending_by_category ts)
              (months_of ts))
    ∧ (get_budget_recommendations ts).total_recommended_budget
        = (budgetTargets.map (budgetRecommended (get_income_summary ts).average_monthly)).sum
    ∧ ∀ cp ∈ budgetTargets,
        ((∃ r ∈ (get_budget_recommendations ts).recommendations, r.category = titleName cp.1)
          ↔ budgetRecommended (get_income_summary ts).average_monthly cp * 1.2
              < budgetActual (get_spending_by_category ts) (months_of ts) cp.1) := by
  have hfold := budget_foldl_spec (get_income_summary ts).average_monthly (months_of ts)
    (get_spending_by_category ts) budgetTargets ([], 0)
  have h1 : (get_budget_recommendations ts).recommendations
      = budgetTargets.filterMap
          (budgetFlag (get_income_summary ts).average_monthly (get_spending_by_category ts)
            (months_of ts)) := by
    simp [get_budget_recommendations, hfold]
  have h2 : (get_budget_recommendations ts).total_recommended_budget
      = (budgetTargets.map (budgetRecommended (get_income_summary ts).average_monthly)).sum := by
    simp [get_budget_recommendations, hfold]
  refine ⟨h1, h2, ?_⟩
  intro cp hcp
  rw [h1]
  exact budget_flag_mem _ _ _ cp hcp


/-- Witness for C4 at a concrete valid transaction list. -/
theorem c4_budget_recommendations_witness :
    TransactionsValid [exIncomeT, exRentT]
    ∧ ((get_budget_recommendations [exIncomeT, exRentT]).recommendations
        = budgetTargets.filterMap
            (budgetFlag (get_income_summary [exIncomeT, exRentT]).average_monthly
              (get_spending_by_category [exIncomeT, exRentT]) (months_of [exIncomeT, exRentT]))
      ∧ (get_budget_recommendations [exIncomeT, exRentT]).total_recommended_budget
          = (budgetTargets.map
              (budgetRecommended (get_income_summary [exIncomeT, exRentT]).average_monthly)).sum
      ∧ ∀ cp ∈ budgetTargets,
          ((∃ r ∈ (get_budget_recommendations [exIncomeT, exRentT]).recommendations,
              r.category = titleName cp.1)
            ↔ budgetRecommended (get_income_summary [exIncomeT, exRentT]).average_monthly cp * 1.2
                < budgetActual (get_spending_by_category [exIncomeT, exRentT])
                    (months_of [exIncomeT, exRentT]) cp.1)) :=
  ⟨by decide, c4_budget_recommendations [exIncomeT, exRentT] (by decide)⟩


/-! ## Claim C5 -/

theorem identify_eq_parts (ts : List Transaction) :
    identify_spending_patterns ts = highPart ts ++ fuelPart ts ++ diningPart ts := rfl


theorem mem_insertByValueDesc (x z : String × ℚ) (l : QDict) :
    z ∈ insertByValueDesc x l ↔ z = x ∨ z ∈ l := by
  induction l with
  | nil => simp [insertByValueDesc]
  | cons y ys ih =>
    unfold insertByValueDesc
    by_cases h : x.2 ≤ y.2
    · rw [if_pos h]
      simp only [List.mem_cons, ih]
      tauto
    · rw [if_neg h]
      simp only [List.mem_cons]


theorem insertByValueDesc_sorted (x : String × ℚ) (l : QDict)
    (hl : l.Pairwise fun a b => b.2 ≤ a.2) :
    (insertByValueDesc x l).Pairwise fun a b => b.2 ≤ a.2 := by
  induction l with
  | nil => simp [insertByValueDesc]
  | cons y ys ih =>
    rw [List.pairwise_cons] at hl
    obtain ⟨hy, hys⟩ := hl
    unfold insertByValueDesc
    by_cases h : x.2 ≤ y.2
    · rw [if_pos h, List.pairwise_cons]
      refine ⟨?_, ih hys⟩
      intro z hz
      rcases (mem_insertByValueDesc x z ys).mp hz with hzx | hzy
      · rw [hzx]; exact h
      · exact hy z hzy
    · rw [if_neg h, List.pairwise_cons]
      refine ⟨?_, List.pairwise_cons.mpr ⟨hy, hys⟩⟩
      intro z hz
      rcases List.mem_cons.mp hz with hzy | hzys
      · rw [hzy]; exact (not_le.mp h).le
      · exact le_trans (hy z hzys) (not_le.mp h).le


theorem sortByValueDesc_mem (d : QDict) (z : String × ℚ) :
    z ∈ sortByValueDesc d ↔ z ∈ d := by
  suffices h : ∀ (l acc : QDict),
      (z ∈ l.foldl (fun acc x => insertByValueDesc x acc) acc ↔ z ∈ acc ∨ z ∈ l) by
    simpa [sortByValueDesc] using h d []
  intro l
  induction l with
  | nil => simp
  | cons y ys ih =>
    intro acc
    rw [List.foldl_cons, ih, mem_insertByValueDesc]
    simp only [List.mem_cons]
    tauto


theorem sortByValueDesc_sorted (d : QDict) :
    (sortByValueDesc d).Pairwise fun a b => b.2 ≤ a.2 := by
  suffices h : ∀ (l acc : QDict), (acc.Pairwise fun a b => b.2 ≤ a.2) →
      ((l.foldl (fun acc x => insertByValueDesc x acc) acc).Pairwise fun a b => b.2 ≤ a.2) by
    exact h d [] (by simp)
  intro l
  induction l with
  | nil => intro acc h; simpa using h
  | cons y ys ih =>
    intro acc h
    rw [List.foldl_cons]
    exact ih _ (insertByValueDesc_sorted y acc h)


theorem highPart_shape (ts : List Transaction) :
    ∀ p ∈ highPart ts, ∃ c m, p = SpendingPattern.high_spending c m := by
  intro p hp
  rw [highPart, List.mem_filterMap] at hp
  obtain ⟨cv, _, hf⟩ := hp
  split at hf
  · cases hf; exact ⟨_, _, rfl⟩
  · cases hf


theorem fuelPart_shape (ts : List Transaction) :
    ∀ p ∈ fuelPart ts, ∃ n, p = SpendingPattern.frequent_fuel n := by
  intro p hp
  unfold fuelPart at hp
  split at hp
  · split at hp
    · rw [List.mem_singleton] at hp; exact ⟨_, hp⟩
    · cases hp
  · cases hp


theorem diningPart_shape (ts : List Transaction) :
    ∀ p ∈ diningPart ts, ∃ n, p = SpendingPattern.frequent_dining n := by
  intro p hp
  unfold diningPart at hp
  split at hp
  · split at hp
    · rw [List.mem_singleton] at hp; exact ⟨_, hp⟩
    · cases hp
  · cases hp


/-- Claim C5 (amended): on a valid transaction list,
`identify_spending_patterns` contains one high-spending entry per expense
category with `categoryTotal/months > avgMonthly*0.3`; a frequent-fuel entry
iff the fuel category has at least one expense (appears in
spending-by-category) AND the fuel-transaction count exceeds `4*months*1.5`;
a frequent-dining entry iff the dining category has at least one expense AND
the dining-transaction count exceeds `8*months*1.5`; the fuel/dining entries
come after all high-spending entries, which are listed in descending order
of category total. -/
theorem c5_spending_patterns (ts : List Transaction) (hv : TransactionsValid ts) :
    (∀ c m, SpendingPattern.high_spending c m ∈ identify_spending_patterns ts ↔
        (∃ v, (c, v) ∈ get_spending_by_category ts ∧ m = v / months_of ts
          ∧ meanOfValues (get_monthly_spending ts) * 0.3 < m))
    ∧ (∀ n, SpendingPattern.frequent_fuel n ∈ identify_spending_patterns ts ↔
        (QDict.hasKey (get_spending_by_category ts) TransactionCategory.fuel.value = true
          ∧ n = (ts.filter fun t => t.category == .fuel).length
          ∧ 4 * months_of ts * 1.5 < (n : ℚ)))
    ∧ (∀ n, SpendingPattern.frequent_dining n ∈ identify_spending_patterns ts ↔
        (QDict.hasKey (get_spending_by_category ts) TransactionCategory.dining.value = true
          ∧ n = (ts.filter fun t => t.category == .dining).length
          ∧ 8 * months_of ts * 1.5 < (n : ℚ)))
    ∧ identify_spending_patterns ts = highPart ts ++ fuelPart ts ++ diningPart ts
    ∧ (∀ p ∈ highPart ts, ∃ c m, p = SpendingPattern.high_spending c m)
    ∧ (∀ p ∈ fuelPart ts, ∃ n, p = SpendingPattern.frequent_fuel n)
    ∧ (∀ p ∈ diningPart ts, ∃ n, p = SpendingPattern.frequent_dining n)
    ∧ ((highPart ts).map fun p => patternMonthlyAvg p * months_of ts).Pairwise (· ≥ ·) := by
  refine ⟨?_, ?_, ?_, identify_eq_parts ts, highPart_shape ts, fuelPart_shape ts,
    diningPart_shape ts, ?_⟩
  · intro c m
    rw [identify_eq_parts, List.mem_append, List.mem_append]
    constructor
    · rintro ((h | h) | h)
      · rw [highPart, List.mem_filterMap] at h
        obtain ⟨cv, hcv, hf⟩ := h
        rw [sortByValueDesc_mem] at hcv
        split at hf
        case isTrue hcond =>
          simp only [Option.some.injEq, SpendingPattern.high_spending.injEq] at hf
          obtain ⟨h1, h2⟩ := hf
          refine ⟨cv.2, ?_, h2.symm, ?_⟩
          · have hcv' : (c, cv.2) = cv := by rw [← h1]
            rw [hcv']; exact hcv
          · rw [← h2]; exact hcond
        case isFalse => cases hf
      · exfalso; obtain ⟨n, hn⟩ := fuelPart_shape ts _ h; cases hn
      · exfalso; obtain ⟨n, hn⟩ := diningPart_shape ts _ h; cases hn
    · rintro ⟨v, hvmem, hm, hcond⟩
      left; left
      rw [highPart, List.mem_filterMap]
      refine ⟨(c, v), (sortByValueDesc_mem _ _).mpr hvmem, ?_⟩
      have hc2 : meanOfValues (get_monthly_spending ts) * 0.3 < (c, v).2 / months_of ts := by
        rw [hm] at hcond; exact hcond
      rw [if_pos hc2, hm]
  · intro n
    rw [identify_eq_parts, List.mem_append, List.mem_append]
    constructor
    · rintro ((h | h) | h)
      · exfalso; obtain ⟨c', m', hn⟩ := highPart_shape ts _ h; cases hn
      · unfold fuelPart at h
        split at h
        case isTrue hkey =>
          split at h
          case isTrue hfreq =>
            rw [List.mem_singleton] at h
            cases h
            exact ⟨hkey, rfl, hfreq⟩
          case isFalse => cases h
        case isFalse => cases h
      · exfalso; obtain ⟨n', hn⟩ := diningPart_shape ts _ h; cases hn
    · rintro ⟨hkey, hn, hfreq⟩
      left; right
      unfold fuelPart
      rw [hn] at hfreq
      rw [if_pos hkey, if_pos hfreq, List.mem_singleton, hn]
  · intro n
    rw [identify_eq_parts, List.mem_append, List.mem_append]
    constructor
    · rintro ((h | h) | h)
      · exfalso; obtain ⟨c', m', hn⟩ := highPart_shape ts _ h; cases hn
      · exfalso; obtain ⟨n', hn⟩ := fuelPart_shape ts _ h; cases hn
      · unfold diningPart at h
        split at h
        case isTrue hkey =>
          split at h
          case isTrue hfreq =>
            rw [List.mem_singleton] at h
            cases h
            exact ⟨hkey, rfl, hfreq⟩
          case isFalse => cases h
        case isFalse => cases h
    · rintro ⟨hkey, hn, hfreq⟩
      right
      unfold diningPart
      rw [hn] at hfreq
      rw [if_pos hkey, if_pos hfreq, List.mem_singleton, hn]
  · rw [highPart, List.map_filterMap]
    apply List.pairwise_filterMap.mpr
    apply List.Pairwise.imp ?_ (sortByValueDesc_sorted (get_spending_by_category ts))
    intro a b hab x hx y hy
    by_cases ha : meanOfValues (get_monthly_spending ts) * 0.3 < a.2 / months_of ts
    · rw [if_pos ha] at hx
      by_cases hb : meanOfValues (get_monthly_spending ts) * 0.3 < b.2 / months_of ts
      · rw [if_pos hb] at hy
        simp only [Option.map_some', Option.mem_def, Option.some.injEq] at hx hy
        have hx' : x = a.2 := by
          rw [← hx]
          show patternMonthlyAvg (.high_spending a.1 (a.2 / months_of ts)) * months_of ts = a.2
          show a.2 / months_of ts * months_of ts = a.2
          exact div_mul_cancel₀ a.2 (months_of_ne_zero ts)
        have hy' : y = b.2 := by
          rw [← hy]
          show patternMonthlyAvg (.high_spending b.1 (b.2 / months_of ts)) * months_of ts = b.2
          show b.2 / months_of ts * months_of ts = b.2
          exact div_mul_cancel₀ b.2 (months_of_ne_zero ts)
        rw [hx', hy']
        exact hab
      · rw [if_neg hb] at hy
        simp at hy
    · rw [if_neg ha] at hx
      simp at hx


/-- Witness for C5 at a concrete valid transaction list. -/
theorem c5_spending_patterns_witness :
    TransactionsValid [exIncomeT, exRentT]
    ∧ identify_spending_patterns [exIncomeT, exRentT]
        = highPart [exIncomeT, exRentT] ++ fuelPart [exIncomeT, exRentT]
            ++ diningPart [exIncomeT, exRentT] :=
  ⟨by decide, (c5_spending_patterns [exIncomeT, exRentT] (by decide)).2.2.2.1⟩


/-- Counterexample to C5 as stated: on `exC5` the claim's trigger condition
for a frequent-fuel entry holds (fuel count 10 over threshold 6), but
`identify_spending_patterns` returns the empty list, because the code first
requires the fuel category to appear among expenses. -/
theorem c5_counterexample :
    TransactionsValid exC5
    ∧ 4 * months_of exC5 * 1.5 < ((exC5.filter fun t => t.category == .fuel).length : ℚ)
    ∧ identify_spending_patterns exC5 = [] := by
  refine ⟨by decide, ?_, by decide⟩
  have h : months_of exC5 = 1 := by
    norm_num [months_of, spanDays, exC5, fuelRefundT, listMax, listMin, pymax]
  rw [h]
  norm_num [exC5, fuelRefundT]


/-! ## Claim C6 -/

theorem extractStep_stuck (s d : String) (hd : d ≠ "") (l : List Msg) :
    l.foldl extractStep (s, d) = (s, d) := by
  induction l with
  | nil => rfl
  | cons m rest ih =>
    rw [List.foldl_cons]
    have hstep : extractStep (s, d) m = (s, d) := by
      unfold extractStep
      match m with
      | .system c => rfl
      | .human c => rfl
      | .ai c => simp [hd]
      | .tool c => simp [hd]
    rw [hstep, ih]


theorem extract_foldl_spec (l : List Msg) (s₀ : String) :
    l.foldl extractStep (s₀, "") =
      (((l.takeWhile fun m => (toolText m).isNone).filterMap aiText).getLast?.getD s₀,
       ((l.filterMap toolText).head?).getD "") := by
  induction l generalizing s₀ with
  | nil => simp
  | cons m rest ih =>
    rw [List.foldl_cons]
    match m with
    | .system c =>
      have h1 : extractStep (s₀, "") (.system c) = (s₀, "") := rfl
      rw [h1, ih]
      simp [toolText, aiText, List.takeWhile_cons, List.filterMap_cons]
    | .human c =>
      have h1 : extractStep (s₀, "") (.human c) = (s₀, "") := rfl
      rw [h1, ih]
      simp [toolText, aiText, List.takeWhile_cons, List.filterMap_cons]
    | .ai c =>
      by_cases hc : c = ""
      · subst hc
        have h1 : extractStep (s₀, "") (.ai "") = (s₀, "") := by
          unfold extractStep; simp
        rw [h1, ih]
        simp [toolText, aiText, List.takeWhile_cons, List.filterMap_cons]
      · have h1 : extractStep (s₀, "") (.ai c) = (c, "") := by
          unfold extractStep; simp [hc]
        rw [h1, ih]
        have htw : ((Msg.ai c) :: rest).takeWhile (fun m => (toolText m).isNone)
            = (Msg.ai c) :: rest.takeWhile (fun m => (toolText m).isNone) := by
          rw [List.takeWhile_cons]; simp [toolText]
        rw [htw]
        have hfm : ((Msg.ai c) :: rest.takeWhile fun m => (toolText m).isNone).filterMap aiText
            = c :: (rest.takeWhile fun m => (toolText m).isNone).filterMap aiText := by
          rw [List.filterMap_cons]; simp [aiText, hc]
        rw [hfm, getLastD_cons]
        simp [toolText, List.filterMap_cons]
    | .tool c =>
      by_cases hc : c = ""
      · subst hc
        have h1 : extractStep (s₀, "") (.tool "") = (s₀, "") := by
          unfold extractStep; simp
        rw [h1, ih]
        have htw : ((Msg.tool "") :: rest).takeWhile (fun m => (toolText m).isNone)
            = (Msg.tool "") :: rest.takeWhile (fun m => (toolText m).isNone) := by
          rw [List.takeWhile_cons]; simp [toolText]
        rw [htw]
        have hfm : ((Msg.tool "") :: rest.takeWhile fun m => (toolText m).isNone).filterMap aiText
            = (rest.takeWhile fun m => (toolText m).isNone).filterMap aiText := by
          rw [List.filterMap_cons]; simp [aiText]
        have hfm2 : ((Msg.tool "") :: rest).filterMap toolText = rest.filterMap toolText := by
          rw [List.filterMap_cons]; simp [toolText]
        rw [hfm, hfm2]
      · have h1 : extractStep (s₀, "") (.tool c) = (s₀, c) := by
          unfold extractStep; simp
        rw [h1, extractStep_stuck s₀ c hc]
        have htw : ((Msg.tool c) :: rest).takeWhile (fun m => (toolText m).isNone) = [] := by
          rw [List.takeWhile_cons]; simp [toolText, hc]
        rw [htw]
        simp [toolText, List.filterMap_cons, hc]


/-- Claim C6 (amended): the extraction loop of `chat` returns as `spoken` the
chronologically FIRST model message with non-empty text among those after
the most recent non-empty tool message (the fixed fallback when none), not
the most recent one — the backward scan keeps overwriting `spoken_response`
until `detailed_data` is set; `detail` is the most recent non-empty tool
message's content, and defaults to `spoken` when there is none. -/
theorem c6_response_extraction (msgs : List Msg) :
    extractResponse msgs = (codeSpoken msgs,
      if codeDetail msgs = "" then codeSpoken msgs else codeDetail msgs) := by
  unfold extractResponse codeSpoken codeDetail
  rw [extract_foldl_spec]


/-- Counterexample to C6 as stated: on `exC6` the most recent model message
with non-empty text is "second answer", but `chat` returns "first answer" as
the spoken text (and hence as the detail). -/
theorem c6_counterexample :
    (extractResponse exC6).1 = "first answer"
    ∧ claimSpoken exC6 = some "second answer"
    ∧ "first answer" ≠ "second answer" := by
  refine ⟨by decide, by decide, by decide⟩


/-! ## Claim C8 -/

/-- Claim C8 (amended): `chat` prepends the system instruction exactly when
the caller-supplied `conversation_history` argument is `None`/empty or holds
no system message; the persisted Dialogue State for the session key is never
consulted.  Since every in-repo caller passes no history, each call submits
one fresh system instruction, and `n` chat calls on one session key append
`n` system instructions to the session transcript. -/
theorem c8_system_message_prepending (sys user : String) (h : Option (List Msg))
    (calls : List String) :
    ((h.getD []).any Msg.isSystem = false →
        buildChatInput sys user h = Msg.system sys :: ((h.getD []) ++ [Msg.human user]))
    ∧ ((h.getD []).any Msg.isSystem = true →
        buildChatInput sys user h = (h.getD []) ++ [Msg.human user])
    ∧ countSystem (sessionTranscript sys calls) = calls.length := by
  refine ⟨?_, ?_, ?_⟩
  · intro hno
    simp [buildChatInput, hno]
  · intro hyes
    have hne : (h.getD []).isEmpty = false := by
      cases hgd : h.getD [] with
      | nil => rw [hgd] at hyes; simp at hyes
      | cons a l => simp
    simp [buildChatInput, hyes, hne]
  · suffices hgen : ∀ (cs : List String) (acc : List Msg),
        countSystem (cs.foldl (fun st u => st ++ buildChatInput sys u none) acc)
          = countSystem acc + cs.length by
      have hg := hgen calls []
      simpa [sessionTranscript, countSystem] using hg
    intro cs
    induction cs with
    | nil => intro acc; simp
    | cons u us ih =>
      intro acc
      rw [List.foldl_cons, ih]
      have hone : countSystem (acc ++ buildChatInput sys u none) = countSystem acc + 1 := by
        unfold countSystem
        rw [List.filter_append, List.length_append]
        rfl
      rw [hone]
      simp
      omega
  

/-- Witness for C8 at a concrete history that already holds a system message. -/
theorem c8_system_message_prepending_witness :
    (([Msg.system "S0"] : List Msg).any Msg.isSystem = true)
    ∧ buildChatInput "S" "hi" (some [Msg.system "S0"])
        = ((some [Msg.system "S0"] : Option (List Msg)).getD []) ++ [Msg.human "hi"] :=
  ⟨by decide,
    (c8_system_message_prepending "S" "hi" (some [Msg.system "S0"]) []).2.1 (by decide)⟩


/-- Counterexample to C8 as stated: two chat calls on one session key (with
the `conversation_history = None` shape every in-repo caller uses) put TWO
system instructions into the session transcript — the persisted state held a
system instruction after the first call, yet the second call still prepended
one, because the code only inspects its `conversation_history` argument. -/
theorem c8_counterexample :
    1 < countSystem (sessionTranscript "S" ["hello", "what is my budget"])
    ∧ countSystem (buildChatInput "S" "what is my budget" none) = 1 := by
  refine ⟨by decide, by decide⟩


/-! ## Claim C9 -/

/-- Claim C9: one voice generation turn publishes a data card iff the turn's
identifier differs from the stored `last_handled_user_msg_id` AND the
extracted text contains a trigger keyword; the stored identifier is updated
exactly on publish; two consecutive turns carrying the same identifier
publish at most once; the spoken chunk is always the orchestrator's voice
text; and nothing in the turn's outcome depends on whether the
fire-and-forget publish succeeds. -/
theorem c9_data_card_dedup (st : Option String) (turnId text1 text2 voice1 voice2 : String)
    (ok1 ok2 : Bool) :
    ((voiceTurnStep st turnId text1 voice1 ok1).published = true
        ↔ (some turnId ≠ st ∧ hasDataTrigger text1 = true))
    ∧ (voiceTurnStep st turnId text1 voice1 ok1).newState
        = (if (voiceTurnStep st turnId text1 voice1 ok1).published then some turnId else st)
    ∧ ¬((voiceTurnStep st turnId text1 voice1 ok1).published = true
        ∧ (voiceTurnStep (voiceTurnStep st turnId text1 voice1 ok1).newState
            turnId text2 voice2 ok2).published = true)
    ∧ (voiceTurnStep st turnId text1 voice1 ok1).spoken = voice1
    ∧ voiceTurnStep st turnId text1 voice1 ok1 = voiceTurnStep st turnId text1 voice1 ok2 := by
  unfold voiceTurnStep
  by_cases h1 : some turnId ≠ st
  · by_cases h2 : hasDataTrigger text1 = true
    · simp [h1, h2]
    · simp [h1, h2]
  · simp [h1]


/-! ## Claim C10 -/

theorem lookupD_add (d : QDict) (k k' : String) (v : ℚ) :
    QDict.lookupD (QDict.add d k v) k' 0
      = QDict.lookupD d k' 0 + (if k = k' then v else 0) := by
  induction d with
  | nil =>
    by_cases hk : k = k' <;> simp [QDict.add, QDict.lookupD, hk]
  | cons p rest ih =>
    obtain ⟨k₀, v₀⟩ := p
    unfold QDict.add
    by_cases h0 : k₀ = k
    · rw [if_pos h0]
      unfold QDict.lookupD
      by_cases h0' : k₀ = k'
      · rw [if_pos h0', if_pos h0', if_pos (h0.symm.trans h0')]
      · rw [if_neg h0', if_neg h0',
          if_neg (fun hh => h0' (h0.trans hh)), add_zero]
    · rw [if_neg h0]
      unfold QDict.lookupD
      by_cases h0' : k₀ = k'
      · rw [if_pos h0', if_pos h0',
          if_neg (fun hh => h0 (h0'.trans hh.symm)), add_zero]
      · rw [if_neg h0', if_neg h0']
        exact ih


theorem lookupD_breakdown (l : List Transaction) (k : String) (acc : QDict) :
    QDict.lookupD (l.foldl (fun d t => QDict.add d t.date.ym |t.amount|) acc) k 0
      = QDict.lookupD acc k 0 + (l.map fun t => if t.date.ym = k then |t.amount| else 0).sum := by
  induction l generalizing acc with
  | nil => simp
  | cons t rest ih =>
    rw [List.foldl_cons, ih, lookupD_add]
    simp [add_assoc]


/-- Claim C10: `get_debt_analysis` selects transactions by debt category
alone, ignoring sign: flipping the sign of a debt-category transaction's
amount changes neither `total_debt_payments` nor `monthly_breakdown`, and
the transaction contributes exactly `abs(amount)` to the total and to its
month's breakdown entry. -/
theorem c10_debt_sign_blind (pre post : List Transaction) (t : Transaction)
    (hdebt : isDebtCategory t.category = true)
    (hv : TransactionsValid (pre ++ t :: post)) :
    (get_debt_analysis (pre ++ t :: post)).total_debt_payments
        = (get_debt_analysis (pre ++ flipAmount t :: post)).total_debt_payments
    ∧ (get_debt_analysis (pre ++ t :: post)).monthly_breakdown
        = (get_debt_analysis (pre ++ flipAmount t :: post)).monthly_breakdown
    ∧ (get_debt_analysis (pre ++ t :: post)).total_debt_payments
        = (get_debt_analysis (pre ++ post)).total_debt_payments + |t.amount|
    ∧ QDict.lookupD (get_debt_analysis (pre ++ t :: post)).monthly_breakdown t.date.ym 0
        = QDict.lookupD (get_debt_analysis (pre ++ post)).monthly_breakdown t.date.ym 0
            + |t.amount| := by
  have hfilA : (pre ++ t :: post).filter (fun x => isDebtCategory x.category)
      = pre.filter (fun x => isDebtCategory x.category)
          ++ t :: post.filter (fun x => isDebtCategory x.category) := by
    rw [List.filter_append]
    simp [List.filter_cons, hdebt]
  have hdebtB : isDebtCategory (flipAmount t).category = true := hdebt
  have hfilB : (pre ++ flipAmount t :: post).filter (fun x => isDebtCategory x.category)
      = pre.filter (fun x => isDebtCategory x.category)
          ++ flipAmount t :: post.filter (fun x => isDebtCategory x.category) := by
    rw [List.filter_append]
    simp [List.filter_cons, hdebtB]
  have hfilC : (pre ++ post).filter (fun x => isDebtCategory x.category)
      = pre.filter (fun x => isDebtCategory x.category)
          ++ post.filter (fun x => isDebtCategory x.category) := List.filter_append _ _
  refine ⟨?_, ?_, ?_, ?_⟩
  · simp only [get_debt_analysis]
    rw [hfilA, hfilB]
    simp [flipAmount, abs_neg]
  · simp only [get_debt_analysis]
    rw [hfilA, hfilB, List.foldl_append, List.foldl_append]
    simp [flipAmount, abs_neg]
  · simp only [get_debt_analysis]
    rw [hfilA, hfilC]
    simp [List.map_append, List.sum_append]
    ring
  · simp only [get_debt_analysis]
    rw [hfilA, hfilC, lookupD_breakdown, lookupD_breakdown]
    simp [List.map_append, List.sum_append]
    ring


/-- Witness for C9 at a concrete first turn (fresh state, triggering text). -/
theorem c9_data_card_dedup_witness :
    ((voiceTurnStep none "turn1" "show my budget" "ok" true).published = true
        ↔ (some "turn1" ≠ (none : Option String) ∧ hasDataTrigger "show my budget" = true))
    ∧ (voiceTurnStep none "turn1" "show my budget" "ok" true).newState
        = (if (voiceTurnStep none "turn1" "show my budget" "ok" true).published
           then some "turn1" else none)
    ∧ ¬((voiceTurnStep none "turn1" "show my budget" "ok" true).published = true
        ∧ (voiceTurnStep (voiceTurnStep none "turn1" "show my budget" "ok" true).newState
            "turn1" "show my budget" "ok" false).published = true)
    ∧ (voiceTurnStep none "turn1" "show my budget" "ok" true).spoken = "ok"
    ∧ voiceTurnStep none "turn1" "show my budget" "ok" true
        = voiceTurnStep none "turn1" "show my budget" "ok" false :=
  c9_data_card_dedup none "turn1" "show my budget" "show my budget" "ok" "ok" true false


/-- Witness for C10 at a concrete valid list with one loan payment. -/
theorem c10_debt_sign_blind_witness :
    isDebtCategory exLoanT.category = true
    ∧ TransactionsValid ([exIncomeT] ++ exLoanT :: [])
    ∧ ((get_debt_analysis ([exIncomeT] ++ exLoanT :: [])).total_debt_payments
          = (get_debt_analysis ([exIncomeT] ++ flipAmount exLoanT :: [])).total_debt_payments
      ∧ (get_debt_analysis ([exIncomeT] ++ exLoanT :: [])).monthly_breakdown
          = (get_debt_analysis ([exIncomeT] ++ flipAmount exLoanT :: [])).monthly_breakdown
      ∧ (get_debt_analysis ([exIncomeT] ++ exLoanT :: [])).total_debt_payments
          = (get_debt_analysis ([exIncomeT] ++ [])).total_debt_payments + |exLoanT.amount|
      ∧ QDict.lookupD (get_debt_analysis ([exIncomeT] ++ exLoanT :: [])).monthly_breakdown
            exLoanT.date.ym 0
          = QDict.lookupD (get_debt_analysis ([exIncomeT] ++ [])).monthly_breakdown
              exLoanT.date.ym 0 + |exLoanT.amount|) :=
  ⟨by decide, by decide, c10_debt_sign_blind [exIncomeT] [] exLoanT (by decide) (by decide)⟩
